import Mathlib

set_option maxHeartbeats 1000000

/-!
Shallow embedding of the transcription-orchestration pipeline of the
streamlit_cloud repository.  The repository holds two near-identical pipeline
variants:

* `src/streamlit_compare_cloud_app.py` (the primary variant, called V1 below);
* `src/streamlit_compare＿cloud_app.py` (the second variant, called V2 below).

Each Lean definition is translated from the named Python function, with the
line numbers of the source given in its doc comment.  Machine reals
(durations, similarity percentages) are modelled as rationals; Python
`int(x)` on nonnegative values is the floor.
-/

/-! ## Basic string helpers (models of Python string primitives) -/

/-- The no-content sentinel both variants return, V1 lines 331/387 and
V2 line 133. -/
def noContentSentinel : String := "[無法辨識內容]"

/-- Models the Python test `s.strip() == ""` (equivalently `not s or
s.strip() == ""`): every character of the string is whitespace, the empty
string included. -/
def isBlank (s : String) : Bool := s.data.all Char.isWhitespace

/-- Models Python `s.startswith(p)`. -/
def pyStartsWith (s p : String) : Bool := p.data.isPrefixOf s.data

/-- Whether `pat` occurs as a contiguous sublist of the second argument. -/
def subListOccurs (pat : List Char) : List Char → Bool
  | [] => pat.isEmpty
  | c :: cs => pat.isPrefixOf (c :: cs) || subListOccurs pat cs

/-- Models the Python membership test `pat in s` on strings. -/
def pyContains (s pat : String) : Bool := subListOccurs pat.data s.data

/-! ## ChunkSegmenter

Both variants split audio with the loop
`for i in range(0, len(audio_segment), chunk_duration_ms):
   chunk = audio_segment[i:i + chunk_duration_ms]`
(V1 lines 340-342, V2 lines 114-115).  Lengths are in milliseconds, the unit
of `len(audio_segment)`. -/

/-- Fuel-indexed model of Python `range(i, L, W)`; fuel `L - i` suffices
whenever `0 < W`, and the top-level entry point below supplies it. -/
def pyRangeAux : ℕ → ℕ → ℕ → ℕ → List ℕ
  | 0, _, _, _ => []
  | fuel + 1, i, L, W => if i < L then i :: pyRangeAux fuel (i + W) L W else []

/-- The start offsets the chunking loop iterates over: `range(0, L, W)`. -/
def pyRange (L W : ℕ) : List ℕ := pyRangeAux L 0 L W

/-- The chunk list: the Python slice `audio_segment[s : s + W]` of a clip of
total length `L` has length `min W (L - s)`, so each chunk is the pair
(start offset, duration). -/
def chunksOf (L W : ℕ) : List (ℕ × ℕ) := (pyRange L W).map (fun s => (s, min W (L - s)))

/-! ## ChunkResultAggregator, variant V1

`transcribe_google_stt`, long-audio branch, lines 345-389: each chunk either
recognizes text (possibly empty, appended as-is), is skipped as too large
(line 360), or raises; a raised error whose message mentions quota gets the
quota marker (line 379), any other error the generic failure marker
(line 381).  The chunk texts are joined with no separator (line 384) and a
blank join is replaced by the sentinel (lines 386-389). -/

inductive SttChunkOutcome where
  | recognized (text : String)
  | tooLarge
  | quotaExceeded
  | recognitionFailed
deriving DecidableEq

/-- The string a chunk outcome contributes, V1 lines 360, 371, 373, 379, 381;
`idx` is the 0-based chunk index of `enumerate`. -/
def sttChunkText (idx : ℕ) : SttChunkOutcome → String
  | .recognized t => t
  | .tooLarge => "[第" ++ toString (idx + 1) ++ "段過大，跳過]"
  | .quotaExceeded => "[第" ++ toString (idx + 1) ++ "段: 配額不足]"
  | .recognitionFailed => "[第" ++ toString (idx + 1) ++ "段辨識失敗]"

/-- Whether the outcome is a failure (anything but recognized text). -/
def sttOutcomeFailed : SttChunkOutcome → Bool
  | .recognized _ => false
  | _ => true

/-- `full_transcript = "".join(transcripts)`, V1 line 384. -/
def sttJoined (os : List SttChunkOutcome) : String :=
  String.join (os.enum.map (fun p => sttChunkText p.1 p.2))

/-- V1 lines 384-389: the joined text, or the sentinel when it is empty or
whitespace-only. -/
def sttAggregate (os : List SttChunkOutcome) : String :=
  if isBlank (sttJoined os) then noContentSentinel else sttJoined os

/-! ## ChunkResultAggregator, variant V2

`transcribe_google_stt` of V2, lines 114-133: a chunk that raises appends the
empty string (line 130, the comment there says the error is ignored), and the
join falls back to the sentinel exactly as in V1 (lines 132-133). -/

inductive SttChunkOutcomeV2 where
  | recognized (text : String)
  | failed
deriving DecidableEq

/-- V2 lines 126-130: recognized text is appended, a failed chunk appends
the empty string. -/
def sttChunkTextV2 : SttChunkOutcomeV2 → String
  | .recognized t => t
  | .failed => ""

/-- `full_transcript = "".join(transcripts)`, V2 line 132. -/
def sttJoinedV2 (os : List SttChunkOutcomeV2) : String :=
  String.join (os.map sttChunkTextV2)

/-- V2 line 133: `full_transcript if full_transcript.strip() else sentinel`. -/
def sttAggregateV2 (os : List SttChunkOutcomeV2) : String :=
  if isBlank (sttJoinedV2 os) then noContentSentinel else sttJoinedV2 os

/-! ## Conversion fallback (claim about V1 lines 283-297 and 421-435) -/

/-- Result of `convert_audio_to_standard_format` (V1 lines 155-206): the
converted path on success, the failure message otherwise. -/
inductive ConvResult where
  | ok (path : String)
  | err (msg : String)
deriving DecidableEq

/-- V1 lines 282-297 of `transcribe_google_stt`: the working path is the
converted file when conversion ran and succeeded, and falls back to the
original `audio_path` both when no conversion is needed and when conversion
failed. -/
def sttWorkingPath (audioPath : String) (needsConversion : Bool) (conv : ConvResult) : String :=
  if needsConversion then
    match conv with
    | .ok p => p
    | .err _ => audioPath
  else audioPath

/-- V1 lines 421-435 of `transcribe_gemini`: conversion to M4A always runs;
on conversion failure the function returns the conversion-error marker
(line 433) without calling the backend, otherwise the backend result stands.
The later steps (lines 437-518) are abstracted into `backendResult`. -/
def geminiTranscribe (conv : ConvResult) (backendResult : String) : String :=
  match conv with
  | .err msg => "[Gemini 錯誤: 音訊轉換失敗 - " ++ msg ++ "]"
  | .ok _ => backendResult

/-! ## Main upload loop, variant V1 (lines 705-764)

For each uploaded file the loop probes the duration with `get_audio_info`
(which returns 0 on every failure path) and skips the file (`continue`,
lines 726-734) when the probe returns 0 or raises; otherwise, per enabled
backend, it appends one record dict
`{'filename', 'datetime', 'duration_sec', 'transcript'}` (lines 740-761). -/

structure UploadedFile where
  name : String
  baseDt : ℚ
  probedDuration : ℚ
  sttText : String
  geminiText : String
deriving DecidableEq

/-- The record dict appended to `stt_records` and `gemini_records`
(V1 lines 743-748, 755-760). -/
structure TranscriptRecord where
  filename : String
  datetimeKey : ℚ
  duration_sec : ℚ
  transcript : String
deriving DecidableEq

/-- The record appended to `stt_records` for a surviving file. -/
def mkSttRecord (f : UploadedFile) : TranscriptRecord :=
  ⟨f.name, f.baseDt, f.probedDuration, f.sttText⟩

/-- The record appended to `gemini_records` for a surviving file. -/
def mkGeminiRecord (f : UploadedFile) : TranscriptRecord :=
  ⟨f.name, f.baseDt, f.probedDuration, f.geminiText⟩

/-- V1 lines 705-764: the loop over the uploaded files, producing the pair
(stt_records, gemini_records).  A file whose duration probe yields 0 is
skipped entirely (lines 726-728); a surviving file appends one record per
enabled backend.  `baseDt` abstracts `extract_datetime_from_filename` and the
two transcript fields abstract the backend calls of lines 742 and 754. -/
def processFilesV1 (useStt useGemini : Bool) : List UploadedFile → List TranscriptRecord × List TranscriptRecord
  | [] => ([], [])
  | f :: rest =>
    if f.probedDuration = 0 then processFilesV1 useStt useGemini rest
    else
      ((if useStt then mkSttRecord f :: (processFilesV1 useStt useGemini rest).1
        else (processFilesV1 useStt useGemini rest).1),
       (if useGemini then mkGeminiRecord f :: (processFilesV1 useStt useGemini rest).2
        else (processFilesV1 useStt useGemini rest).2))

/-! ## MergedRecordBuilder (`generate_merged_content`, V1 lines 522-575)

The utterance-construction core of the function: records are sorted by their
datetime (line 541), a transcript is split into dialogues on the regex
`[。！？\n]+` with stripping and dropping of blank pieces (line 549) unless it
starts with `[` (line 546, error markers are never split); an empty dialogue
list falls back to the whole text as one utterance (lines 552-553); utterance
`i` gets the synthesized timestamp
`base_time + timedelta(seconds=int(i * duration / max(count, 1)))`
(lines 556-561), and the two-valued speaker toggle flips once per utterance
and carries across records (lines 538, 562-564).  The surrounding header,
footer and provenance lines do not affect the claims and are not modelled. -/

/-- Splitting a character list at every character satisfying `p`
(run-splitting followed by blank-filtering agrees with this single-character
splitting once blanks are dropped, so it models `re.split` at line 549). -/
def splitOnPred (p : Char → Bool) : List Char → List (List Char)
  | [] => [[]]
  | c :: rest =>
    if p c then [] :: splitOnPred p rest
    else
      match splitOnPred p rest with
      | [] => [[c]]
      | g :: gs => (c :: g) :: gs

/-- Models Python `s.strip()` on a character list. -/
def trimChars (cs : List Char) : List Char :=
  ((cs.dropWhile Char.isWhitespace).reverse.dropWhile Char.isWhitespace).reverse

/-- Line 549: `[s.strip() for s in re.split(r'[。！？\n]+', text) if s.strip()]`. -/
def splitPunct (text : String) : List String :=
  ((splitOnPred (fun c => c == '。' || c == '！' || c == '？' || c == '\n') text.data).map
    (fun l => (trimChars l).asString)).filter (fun s => s ≠ "")

/-- Lines 546-553: bracket-prefixed text is never split, and an empty split
falls back to the whole text as the single dialogue. -/
def dialoguesOf (text : String) : List String :=
  let ds := if pyStartsWith text "[" then [] else splitPunct text
  if ds.isEmpty then [text] else ds

/-- Lines 560-564: the utterances of one record, as
(speaker toggle, synthesized timestamp, dialogue text); utterance `i` is
stamped `key + int(i * interval)` seconds and the toggle flips after each
utterance. -/
def uttsWalk (t : Bool) (key interval : ℚ) (i : ℕ) : List String → List (Bool × ℚ × String)
  | [] => []
  | d :: ds => (t, key + ((⌊(i : ℚ) * interval⌋ : ℤ) : ℚ), d) :: uttsWalk (!t) key interval (i + 1) ds

/-- Lines 543-564 for one record: `interval = duration_sec / max(len(dialogues), 1)`. -/
def fileUtts (t : Bool) (r : TranscriptRecord) : List (Bool × ℚ × String) :=
  uttsWalk t r.datetimeKey (r.duration_sec / ((max (dialoguesOf r.transcript).length 1 : ℕ) : ℚ)) 0
    (dialoguesOf r.transcript)

/-- The speaker toggle after emitting `n` utterances that started at `t`. -/
def flipAfter (t : Bool) (n : ℕ) : Bool := if n % 2 = 1 then !t else t

/-- The utterance stream of the whole record list, with the speaker toggle
carried across records (the toggle of line 538 is initialized once, before
the record loop). -/
def allUtts (t : Bool) : List TranscriptRecord → List (Bool × ℚ × String)
  | [] => []
  | r :: rs => fileUtts t r ++ allUtts (flipAfter t (dialoguesOf r.transcript).length) rs

instance : DecidableRel (fun a b : TranscriptRecord => a.datetimeKey ≤ b.datetimeKey) :=
  fun a b => inferInstanceAs (Decidable (a.datetimeKey ≤ b.datetimeKey))

/-- Lines 538-564: records sorted by datetime (line 541, a stable sort), then
the utterance stream with the global speaker toggle starting at True
(speaker A). -/
def mergedUtts (records : List TranscriptRecord) : List (Bool × ℚ × String) :=
  allUtts true (List.insertionSort (fun a b => a.datetimeKey ≤ b.datetimeKey) records)

/-! ## ComparisonAnalyzer (`generate_comparison_report`, V1 lines 577-666) -/

/-- A horizontal rule: the Python expression `c * 80` on a one-character
string. -/
def hbar (c : Char) (n : ℕ) : String := (List.replicate n c).asString

/-- Models the Python format `f"{q:.1f}"` for the nonnegative rationals that
occur in the report (rounding of exact ties may differ; no claim depends on
it). -/
def fmt1 (q : ℚ) : String :=
  toString (⌊q * 10 + 1 / 2⌋ / 10) ++ "." ++ toString (⌊q * 10 + 1 / 2⌋ % 10)

/-- Two-digit zero padding. -/
def pad2 (n : ℕ) : String := if n < 10 then "0" ++ toString n else toString n

/-- `format_duration` (V1 lines 248-250): `str(timedelta(seconds=int(q)))`,
modelled for the nonnegative sub-day durations the app handles. -/
def formatDuration (q : ℚ) : String :=
  toString (⌊q⌋.toNat / 3600) ++ ":" ++ pad2 ((⌊q⌋.toNat % 3600) / 60) ++ ":" ++ pad2 (⌊q⌋.toNat % 60)

/-- `set(s)` on a Python string: the set of distinct characters. -/
def distinctChars (s : String) : Finset Char := s.data.toFinset

/-- V1 lines 637-639: `len(set(a) & set(b)) / max(len(set(a)), len(set(b)), 1)
* 100`. -/
def similarityPct (a b : String) : ℚ :=
  ((distinctChars a ∩ distinctChars b).card : ℚ) /
    ((max (max (distinctChars a).card (distinctChars b).card) 1 : ℕ) : ℚ) * 100

/-- V1 lines 647-648: a transcript counts as failed when it starts with the
bracket and mentions the error word. -/
def isErrText (s : String) : Bool := pyStartsWith s "[" && pyContains s "錯誤"

inductive PairClass where
  | bothFailed
  | aFailedOnly
  | bFailedOnly
  | bothOk
deriving DecidableEq

/-- V1 lines 647-657: the four-way classification of an aligned pair from the
two error flags. -/
def classifyPair (sttText geminiText : String) : PairClass :=
  if isErrText sttText && isErrText geminiText then .bothFailed
  else if isErrText sttText then .aFailedOnly
  else if isErrText geminiText then .bFailedOnly
  else .bothOk

/-- The classification line emitted for each class, V1 lines 650-657. -/
def classLine : PairClass → String
  | .bothFailed => "⚠️  兩者皆辨識失敗"
  | .aFailedOnly => "⚠️  Google STT 辨識失敗，Gemini 成功"
  | .bFailedOnly => "⚠️  Gemini 辨識失敗，Google STT 成功"
  | .bothOk => "✅ 兩者皆成功辨識"

/-- V1 lines 612-659: the per-pair section of the report; `i` is the 0-based
position of the pair in `zip(stt_records, gemini_records)`. -/
def pairLines (i : ℕ) (s g : TranscriptRecord) : List String :=
  [hbar '=' 80,
   "檔案 " ++ toString (i + 1) ++ ": " ++ s.filename,
   "時長: " ++ formatDuration s.duration_sec,
   hbar '=' 80,
   "",
   "【Google STT 結果】",
   hbar '─' 80,
   s.transcript,
   "(字元數: " ++ toString s.transcript.length ++ ")",
   "",
   "【Gemini 2.0 結果】",
   hbar '─' 80,
   g.transcript,
   "(字元數: " ++ toString g.transcript.length ++ ")",
   "",
   "【差異分析】",
   hbar '─' 80,
   "字元數差異: " ++ toString (((s.transcript.length : ℤ) - (g.transcript.length : ℤ)).natAbs) ++ " 字元",
   "字元集相似度: " ++ fmt1 (similarityPct s.transcript g.transcript) ++ "%",
   classLine (classifyPair s.transcript g.transcript),
   ""]

/-- `generate_comparison_report` (V1 lines 577-666) as its list of lines
(the function returns their newline join); `now` abstracts
`datetime.now().strftime(...)`.  An empty record list on either side yields
the short no-comparable-records report (lines 590-593); otherwise the
overall statistics (lines 596-609, the average over `len(stt_records)`), the
zip-paired per-file sections (line 612) and the closing footer
(lines 662-664). -/
def comparisonLines (now : String) (stt gem : List TranscriptRecord) : List String :=
  let header := [hbar '═' 80,
                 "           Google STT vs Gemini 2.0 - 轉譯結果比較報告",
                 hbar '═' 80,
                 "生成時間：" ++ now,
                 "檔案數量：" ++ toString stt.length ++ " 個",
                 hbar '═' 80 ++ "\n"]
  if stt.isEmpty || gem.isEmpty then
    header ++ ["⚠️  沒有可比較的記錄", hbar '=' 80]
  else
    header ++
      (["📊 整體統計",
        hbar '─' 80,
        "Google STT 總字元數：" ++ toString ((stt.map (fun r => r.transcript.length)).sum),
        "Gemini 總字元數：" ++ toString ((gem.map (fun r => r.transcript.length)).sum)] ++
       (if 0 < stt.length then
          ["平均字元差異：" ++
            fmt1 (((((stt.map (fun r => r.transcript.length)).sum : ℤ) -
                     ((gem.map (fun r => r.transcript.length)).sum : ℤ)).natAbs : ℚ) /
                   (stt.length : ℚ)) ++ " 字元/檔"]
        else []) ++ [""]) ++
      ((stt.zip gem).enum.map (fun p => pairLines p.1 p.2.1 p.2.2)).flatten ++
      [hbar '=' 80, "                        比較報告結束", hbar '=' 80]

/-- The report string itself: `"\n".join(lines)`, V1 line 666. -/
def comparisonReport (now : String) (stt gem : List TranscriptRecord) : String :=
  String.intercalate "\n" (comparisonLines now stt gem)

/-! ## Lemmas about the segmenter -/

lemma cdiv_step {W a : ℕ} (hW : 0 < W) (ha : 1 ≤ a) :
    (a + W - 1) / W = (a - W + W - 1) / W + 1 := by
  rcases le_or_lt a W with h | h
  · have h1 : a + W - 1 = (a - 1) + W := by omega
    have h0 : a - W = 0 := by omega
    rw [h1, Nat.add_div_right _ hW, h0]
    rw [Nat.div_eq_of_lt (show a - 1 < W by omega), Nat.div_eq_of_lt (show 0 + W - 1 < W by omega)]
  · have h1 : a + W - 1 = ((a - W - 1) + W) + W := by omega
    have h2 : a - W + W - 1 = (a - W - 1) + W := by omega
    rw [h1, h2, Nat.add_div_right _ hW, Nat.add_div_right _ hW]

lemma pyRangeAux_length {W : ℕ} (hW : 0 < W) :
    ∀ fuel L i, L - i ≤ fuel → (pyRangeAux fuel i L W).length = (L - i + W - 1) / W := by
  intro fuel
  induction fuel with
  | zero =>
    intro L i h
    have h0 : L - i = 0 := by omega
    simp only [pyRangeAux, h0, List.length_nil]
    rw [Nat.div_eq_of_lt (show 0 + W - 1 < W by omega)]
  | succ n ih =>
    intro L i h
    simp only [pyRangeAux]
    by_cases hi : i < L
    · rw [if_pos hi, List.length_cons, ih L (i + W) (by omega),
        show L - (i + W) = L - i - W by omega, cdiv_step hW (show 1 ≤ L - i by omega)]
    · rw [if_neg hi]
      have h0 : L - i = 0 := by omega
      simp only [List.length_nil, h0]
      rw [Nat.div_eq_of_lt (show 0 + W - 1 < W by omega)]

lemma pyRangeAux_sum {W : ℕ} (hW : 0 < W) :
    ∀ fuel L i, L - i ≤ fuel →
      ((pyRangeAux fuel i L W).map (fun s => min W (L - s))).sum = L - i := by
  intro fuel
  induction fuel with
  | zero =>
    intro L i h
    simp only [pyRangeAux, List.map_nil, List.sum_nil]
    omega
  | succ n ih =>
    intro L i h
    simp only [pyRangeAux]
    by_cases hi : i < L
    · rw [if_pos hi]
      simp only [List.map_cons, List.sum_cons, ih L (i + W) (by omega)]
      rcases le_total W (L - i) with hw | hw
      · rw [min_eq_left hw]; omega
      · rw [min_eq_right hw]; omega
    · rw [if_neg hi]
      simp only [List.map_nil, List.sum_nil]
      omega

lemma pyRangeAux_mem {W : ℕ} :
    ∀ fuel L i s, s ∈ pyRangeAux fuel i L W → i ≤ s ∧ s < L := by
  intro fuel
  induction fuel with
  | zero => intro L i s h; simp [pyRangeAux] at h
  | succ n ih =>
    intro L i s h
    simp only [pyRangeAux] at h
    by_cases hi : i < L
    · rw [if_pos hi] at h
      rcases List.mem_cons.mp h with h | h
      · omega
      · have := ih L (i + W) s h
        omega
    · rw [if_neg hi] at h
      simp at h

lemma pyRangeAux_head {W L : ℕ} :
    ∀ fuel i b, (pyRangeAux fuel i L W).head? = some b → b = i := by
  intro fuel i b h
  cases fuel with
  | zero => simp [pyRangeAux] at h
  | succ n =>
    simp only [pyRangeAux] at h
    by_cases hi : i < L
    · rw [if_pos hi] at h
      simp only [List.head?_cons, Option.some.injEq] at h
      omega
    · rw [if_neg hi] at h
      simp at h

lemma pyRangeAux_chain {W : ℕ} :
    ∀ fuel L i, List.Chain' (fun a b => W ≤ L - a ∧ b = a + W) (pyRangeAux fuel i L W) := by
  intro fuel
  induction fuel with
  | zero => intro L i; simp [pyRangeAux]
  | succ n ih =>
    intro L i
    simp only [pyRangeAux]
    by_cases hi : i < L
    · rw [if_pos hi]
      refine List.chain'_cons'.mpr ⟨?_, ih L (i + W)⟩
      intro b hb
      have hbi := pyRangeAux_head n (i + W) b hb
      have hbl := pyRangeAux_mem n L (i + W) b (List.mem_of_mem_head? hb)
      exact ⟨by omega, by omega⟩
    · rw [if_neg hi]
      simp

/-- C7: for audio of total length L segmented with window W, the chunking
loop produces exactly the ceiling of L divided by W chunks (stated both as
the closed formula and as the Galois characterization of the ceiling), chunk
durations sum to L, consecutive chunks have strictly increasing starts with
no gaps or overlaps and every chunk with a successor has the full window
duration W (so only the last chunk may be shorter), and every chunk has
positive duration at most W. -/
theorem c7_segmenter_spec (L W : ℕ) (hW : 0 < W) :
    (chunksOf L W).length = (L + W - 1) / W ∧
    (∀ n, (chunksOf L W).length ≤ n ↔ L ≤ n * W) ∧
    ((chunksOf L W).map (fun c => c.2)).sum = L ∧
    List.Chain' (fun c c' => c.2 = W ∧ c'.1 = c.1 + c.2 ∧ c.1 < c'.1) (chunksOf L W) ∧
    (∀ c ∈ chunksOf L W, 0 < c.2 ∧ c.2 ≤ W) := by
  have hlen : (chunksOf L W).length = (L + W - 1) / W := by
    rw [chunksOf, List.length_map, pyRange, pyRangeAux_length hW L L 0 (by omega), Nat.sub_zero]
  refine ⟨hlen, ?_, ?_, ?_, ?_⟩
  · intro n
    rw [hlen, Nat.div_le_iff_le_mul_add_pred hW, Nat.mul_comm n W]
    generalize W * n = k
    omega
  · rw [chunksOf, List.map_map]
    have : ((fun c : ℕ × ℕ => c.2) ∘ fun s => (s, min W (L - s))) = fun s => min W (L - s) := rfl
    rw [this, pyRange, pyRangeAux_sum hW L L 0 (by omega)]
    omega
  · rw [chunksOf, List.chain'_map]
    refine (pyRangeAux_chain L L 0).imp ?_
    intro a b hab
    refine ⟨min_eq_left hab.1, by rw [min_eq_left hab.1]; exact hab.2, by omega⟩
  · intro c hc
    rcases List.mem_map.mp hc with ⟨s, hs, hcs⟩
    have := pyRangeAux_mem L L 0 s hs
    subst hcs
    exact ⟨lt_min hW (by omega), min_le_left _ _⟩

/-- Witness for c7_segmenter_spec: the 125-second clip with a 50-second
window (in milliseconds, as in the source). -/
theorem c7_segmenter_spec_witness :
    0 < 50000 ∧ (chunksOf 125000 50000).length = (125000 + 50000 - 1) / 50000 :=
  ⟨by decide, (c7_segmenter_spec 125000 50000 (by decide)).1⟩

/-! ## Lemmas about blank tests and the failure markers -/

lemma isBlank_append (a b : String) : isBlank (a ++ b) = (isBlank a && isBlank b) := by
  simp [isBlank, String.data_append, List.all_append]

lemma data_bracket (s : String) : ("[第" ++ s).data = '[' :: '第' :: s.data := by
  rw [String.data_append]; rfl

lemma bracketMarkerStarts (s : String) : pyStartsWith ("[第" ++ s) "[" = true := by
  rw [pyStartsWith, data_bracket]; rfl

lemma bracket_ne_empty (s : String) : ("[第" ++ s) ≠ "" := by
  intro h
  have hd := data_bracket s
  rw [h] at hd
  exact absurd hd.symm (List.cons_ne_nil _ _)

/-- C1 counterexample: in variant V2, with three chunks where the backend
call for the middle chunk fails (a quota error raises like any other, V2
lines 128-130), the final transcript is just the two recognized texts: the
failed chunk contributes no bracket-delimited marker at all and is silently
dropped, contrary to the claim. -/
theorem c1_counterexample :
    sttAggregateV2 [.recognized "甲", .failed, .recognized "乙"] = "甲乙" ∧
    pyContains "甲乙" "[" = false ∧ pyContains "甲乙" "]" = false := by
  decide

/-- C1 (amended): in variant V1 the claim holds exactly: a 125000 ms clip
with a 50000 ms window yields 3 chunks of durations 50000, 50000 and
25000 ms; when chunk 2 fails with a quota error while chunks 1 and 3
recognize text, the aggregate is chunk-1 text, the bracketed quota marker
naming 1-based chunk 2, then chunk-3 text; and every failed chunk outcome
contributes a nonempty marker starting with the bracket. -/
theorem c1_v1_chunk_failure_markers :
    ((chunksOf 125000 50000).map (fun c => c.2) = [50000, 50000, 25000]) ∧
    (∀ t1 t3 : String,
      sttAggregate [.recognized t1, .quotaExceeded, .recognized t3] =
        t1 ++ "[第2段: 配額不足]" ++ t3) ∧
    (∀ (idx : ℕ) (o : SttChunkOutcome), sttOutcomeFailed o = true →
      pyStartsWith (sttChunkText idx o) "[" = true ∧ sttChunkText idx o ≠ "") := by
  refine ⟨by decide, ?_, ?_⟩
  · intro t1 t3
    have hj : sttJoined [.recognized t1, .quotaExceeded, .recognized t3] =
        t1 ++ "[第2段: 配額不足]" ++ t3 := by
      simp [sttJoined, String.join, sttChunkText, List.enum, String.empty_append]
      rw [show "[第" ++ toString 2 ++ "段: 配額不足]" = "[第2段: 配額不足]" from by decide]
    have hb : isBlank (t1 ++ "[第2段: 配額不足]" ++ t3) = false := by
      rw [isBlank_append, isBlank_append,
        show isBlank "[第2段: 配額不足]" = false from by decide]
      simp
    simp only [sttAggregate, hj, hb]
    simp
  · intro idx o h
    cases o with
    | recognized t => simp [sttOutcomeFailed] at h
    | tooLarge =>
      rw [sttChunkText, String.append_assoc]
      exact ⟨bracketMarkerStarts _, bracket_ne_empty _⟩
    | quotaExceeded =>
      rw [sttChunkText, String.append_assoc]
      exact ⟨bracketMarkerStarts _, bracket_ne_empty _⟩
    | recognitionFailed =>
      rw [sttChunkText, String.append_assoc]
      exact ⟨bracketMarkerStarts _, bracket_ne_empty _⟩

/-- Witness for c1_v1_chunk_failure_markers at a concrete scenario. -/
theorem c1_v1_chunk_failure_markers_witness :
    sttAggregate [.recognized "月台", .quotaExceeded, .recognized "淨空"] =
      "月台" ++ "[第2段: 配額不足]" ++ "淨空" ∧
    (pyStartsWith (sttChunkText 1 .quotaExceeded) "[" = true ∧ sttChunkText 1 .quotaExceeded ≠ "") :=
  ⟨c1_v1_chunk_failure_markers.2.1 "月台" "淨空",
   c1_v1_chunk_failure_markers.2.2 1 .quotaExceeded (by decide)⟩

/-- C2 counterexample: in variant V1, when every chunk outcome is a failure
the transcript is the concatenation of the failure markers, not the
no-content sentinel, so the all-failed clause of the claim is false on V1. -/
theorem c2_counterexample :
    sttAggregate [.recognitionFailed, .recognitionFailed] =
      "[第1段辨識失敗][第2段辨識失敗]" ∧
    "[第1段辨識失敗][第2段辨識失敗]" ≠ noContentSentinel := by
  decide

/-- C2 (amended): in both variants an empty or whitespace-only concatenation
of chunk texts yields exactly the no-content sentinel; the all-failed clause
holds in variant V2 (where failed chunks contribute empty strings), while in
variant V1 all-failed outcomes yield the joined markers
(c2_counterexample). -/
theorem c2_blank_sentinel :
    (∀ os : List SttChunkOutcome, isBlank (sttJoined os) = true →
      sttAggregate os = noContentSentinel) ∧
    (∀ os : List SttChunkOutcomeV2, isBlank (sttJoinedV2 os) = true →
      sttAggregateV2 os = noContentSentinel) ∧
    (∀ os : List SttChunkOutcomeV2, (∀ o ∈ os, o = .failed) →
      sttAggregateV2 os = noContentSentinel) := by
  refine ⟨?_, ?_, ?_⟩
  · intro os h
    simp only [sttAggregate, h]
    simp
  · intro os h
    simp only [sttAggregateV2, h]
    simp
  · intro os h
    have hj : sttJoinedV2 os = "" := by
      induction os with
      | nil => rfl
      | cons o rest ih =>
        have ho : o = .failed := h o (List.mem_cons_self o rest)
        have hr : sttJoinedV2 rest = "" :=
          ih (fun x hx => h x (List.mem_cons_of_mem o hx))
        subst ho
        simp only [sttJoinedV2, List.map_cons, sttChunkTextV2, String.join,
          List.foldl_cons, String.empty_append] at hr ⊢
        exact hr
    simp only [sttAggregateV2, hj]
    simp [isBlank]

/-- Witness for c2_blank_sentinel: the empty outcome list in V1 and an
all-failed outcome list in V2. -/
theorem c2_blank_sentinel_witness :
    sttAggregate [] = noContentSentinel ∧
    sttAggregateV2 [.failed, .failed] = noContentSentinel :=
  ⟨c2_blank_sentinel.1 [] (by decide),
   c2_blank_sentinel.2.2 [.failed, .failed] (by decide)⟩

/-- C3 counterexample: in the Gemini path a conversion failure yields the
conversion-error result, not a transcription of the original audio (here the
backend would have recognized text, but the function returns the error
marker instead), so the claim is false for the generative path. -/
theorem c3_counterexample :
    geminiTranscribe (.err "轉換超時") "呼叫行控" = "[Gemini 錯誤: 音訊轉換失敗 - 轉換超時]" ∧
    geminiTranscribe (.err "轉換超時") "呼叫行控" ≠ "呼叫行控" := by
  decide

/-- C3 (amended): the recognizer (STT) path falls back to the original,
unconverted audio when conversion fails, while the generative (Gemini) path
aborts with a conversion-failure error result and never falls back. -/
theorem c3_conversion_fallback :
    (∀ p m, sttWorkingPath p true (.err m) = p) ∧
    (∀ p q, sttWorkingPath p true (.ok q) = q) ∧
    (∀ p c, sttWorkingPath p false c = p) ∧
    (∀ m r, geminiTranscribe (.err m) r = "[Gemini 錯誤: 音訊轉換失敗 - " ++ m ++ "]") ∧
    (∀ q r, geminiTranscribe (.ok q) r = r) :=
  ⟨fun _ _ => rfl, fun _ _ => rfl, fun _ c => by cases c <;> rfl,
   fun _ _ => rfl, fun _ _ => rfl⟩

/-! ## The upload-loop characterization -/

lemma processFilesV1_spec (useStt useGemini : Bool) :
    ∀ files : List UploadedFile,
      (processFilesV1 useStt useGemini files).1 =
        (if useStt then
          (files.filter (fun f => decide (f.probedDuration ≠ 0))).map mkSttRecord
        else []) ∧
      (processFilesV1 useStt useGemini files).2 =
        (if useGemini then
          (files.filter (fun f => decide (f.probedDuration ≠ 0))).map mkGeminiRecord
        else []) := by
  intro files
  induction files with
  | nil => cases useStt <;> cases useGemini <;> simp [processFilesV1]
  | cons f rest ih =>
    by_cases hf : f.probedDuration = 0
    · simp only [processFilesV1, if_pos hf, List.filter_cons, hf]
      simp [ih.1, ih.2]
    · simp only [processFilesV1, if_neg hf, List.filter_cons]
      rw [ih.1, ih.2]
      cases useStt <;> cases useGemini <;> simp [hf]

/-- C4 counterexample: an uploaded file whose duration probe returns 0 is
skipped by the loop and yields no record in either list, so a file can be
omitted from the per-backend record lists. -/
theorem c4_counterexample :
    processFilesV1 true true [⟨"a.wav", 0, 0, "內容甲", "內容乙"⟩] = ([], []) := by
  decide

/-- C4 (amended): every uploaded file whose duration probe returns nonzero
yields exactly one record per enabled backend, in upload order; files whose
probe returns 0 (or raises, which the probe converts to 0) are reported with
an on-screen error and omitted from both record lists. -/
theorem c4_probe_skip_characterization :
    ∀ (useStt useGemini : Bool) (files : List UploadedFile),
      (processFilesV1 useStt useGemini files).1 =
        (if useStt then
          (files.filter (fun f => decide (f.probedDuration ≠ 0))).map mkSttRecord
        else []) ∧
      (processFilesV1 useStt useGemini files).2 =
        (if useGemini then
          (files.filter (fun f => decide (f.probedDuration ≠ 0))).map mkGeminiRecord
        else []) :=
  fun useStt useGemini files => processFilesV1_spec useStt useGemini files

/-- C9: in dual mode every iteration that survives the duration probe
appends one record to each list for the same file, so the two record lists
always have equal length and equal indices carry the same source filename. -/
theorem c9_dual_mode_alignment :
    ∀ files : List UploadedFile,
      ((processFilesV1 true true files).1.map (fun r => r.filename) =
        (processFilesV1 true true files).2.map (fun r => r.filename)) ∧
      (processFilesV1 true true files).1.length = (processFilesV1 true true files).2.length := by
  intro files
  have h := processFilesV1_spec true true files
  rw [h.1, h.2]
  simp [List.map_map, mkSttRecord, mkGeminiRecord, Function.comp]

/-- C5 counterexample: on mismatched lengths (two STT records, one Gemini
record) the comparison function neither fails nor reports a mismatch: it
returns a normal report of 36 lines — 6 header, 6 statistics, exactly one
21-line per-file section (for file 1 only; the second STT record is silently
dropped by the zip pairing), and the 3-line closing footer, whose text line
sits at index 34. -/
theorem c5_counterexample :
    (comparisonLines "T" [⟨"a.wav", 0, 5, "甲"⟩, ⟨"b.wav", 0, 5, "乙"⟩]
        [⟨"a.wav", 0, 5, "丙"⟩]).length = 36 ∧
    (comparisonLines "T" [⟨"a.wav", 0, 5, "甲"⟩, ⟨"b.wav", 0, 5, "乙"⟩]
        [⟨"a.wav", 0, 5, "丙"⟩])[13]? = some "檔案 1: a.wav" ∧
    (comparisonLines "T" [⟨"a.wav", 0, 5, "甲"⟩, ⟨"b.wav", 0, 5, "乙"⟩]
        [⟨"a.wav", 0, 5, "丙"⟩])[34]? = some "                        比較報告結束" :=
  ⟨by decide, by decide, by decide⟩

/-- C5 (amended): with either record list empty the report states there are
no comparable records; with both nonempty the function always completes with
the normal closing footer and its line count is 15 plus 21 lines per
compared pair, the number of compared pairs being the minimum of the two
lengths (the zip pairing), so mismatched lengths are silently truncated
rather than failing with an alignment error. -/
theorem c5_empty_and_mismatch_behavior :
    ∀ (now : String) (stt gem : List TranscriptRecord),
      ((stt = [] ∨ gem = []) → "⚠️  沒有可比較的記錄" ∈ comparisonLines now stt gem) ∧
      (stt ≠ [] → gem ≠ [] →
        "                        比較報告結束" ∈ comparisonLines now stt gem ∧
        (comparisonLines now stt gem).length = 15 + 21 * min stt.length gem.length) := by
  intro now stt gem
  constructor
  · intro h
    have he : (stt.isEmpty || gem.isEmpty) = true := by
      rcases h with h | h <;> simp [h]
    simp [comparisonLines, he]
  · intro hs hg
    have he : (stt.isEmpty || gem.isEmpty) = false := by
      simp [List.isEmpty_iff, hs, hg]
    have hlen : 0 < stt.length := List.length_pos.mpr hs
    constructor
    · simp [comparisonLines, he]
    · have hflat : ∀ l : List (ℕ × (TranscriptRecord × TranscriptRecord)),
          ((l.map (fun p => pairLines p.1 p.2.1 p.2.2)).flatten).length = 21 * l.length := by
        intro l
        induction l with
        | nil => simp
        | cons x xs ih =>
          simp only [List.map_cons, List.flatten_cons, List.length_append, ih, List.length_cons]
          simp [pairLines]
          omega
      simp only [comparisonLines, he, Bool.false_eq_true, if_false, if_pos hlen]
      simp [List.length_append, hflat, List.length_zip, List.enum_length]
      omega

/-- Witness for c5_empty_and_mismatch_behavior at empty and at nonempty
concrete inputs. -/
theorem c5_empty_and_mismatch_behavior_witness :
    "⚠️  沒有可比較的記錄" ∈ comparisonLines "T" [] [] ∧
    "                        比較報告結束" ∈
      comparisonLines "T" [⟨"a.wav", 0, 5, "甲"⟩] [⟨"a.wav", 0, 5, "丙"⟩] :=
  ⟨(c5_empty_and_mismatch_behavior "T" [] []).1 (Or.inl rfl),
   ((c5_empty_and_mismatch_behavior "T" [⟨"a.wav", 0, 5, "甲"⟩]
      [⟨"a.wav", 0, 5, "丙"⟩]).2 (by decide) (by decide)).1⟩

/-- C6: the report classifies every aligned pair into exactly one of the
four classes, characterized by the two bracket-marker-with-error flags; in
particular a file whose STT transcript is a file-level all-error marker
(here the quota marker emitted when the whole STT call fails, V1 line 404)
paired with ordinary recognized text from Gemini is classified as
STT-failed-only. -/
theorem c6_pair_classification :
    (∀ a b : String,
      (classifyPair a b = .bothFailed ↔ (isErrText a = true ∧ isErrText b = true)) ∧
      (classifyPair a b = .aFailedOnly ↔ (isErrText a = true ∧ isErrText b = false)) ∧
      (classifyPair a b = .bFailedOnly ↔ (isErrText a = false ∧ isErrText b = true)) ∧
      (classifyPair a b = .bothOk ↔ (isErrText a = false ∧ isErrText b = false))) ∧
    (∀ b : String, pyStartsWith b "[" = false →
      classifyPair "[STT 錯誤: API 配額不足，請稍後再試]" b = .aFailedOnly) := by
  constructor
  · intro a b
    cases ha : isErrText a <;> cases hb : isErrText b <;>
      simp [classifyPair, ha, hb]
  · intro b hb
    have hberr : isErrText b = false := by simp [isErrText, hb]
    have haerr : isErrText "[STT 錯誤: API 配額不足，請稍後再試]" = true := by decide
    simp [classifyPair, haerr, hberr]

/-- Witness for c6_pair_classification: a concrete non-bracketed Gemini
transcript. -/
theorem c6_pair_classification_witness :
    pyStartsWith "列車已淨空月台" "[" = false ∧
    classifyPair "[STT 錯誤: API 配額不足，請稍後再試]" "列車已淨空月台" = .aFailedOnly :=
  ⟨by decide, c6_pair_classification.2 "列車已淨空月台" (by decide)⟩

/-- C10: for every pair of transcript strings the similarity divisor
max(distinct chars of A, distinct chars of B, 1) is at least 1 (so the
division is never by zero, the empty strings included) and the resulting
percentage lies between 0 and 100. -/
theorem c10_similarity_bounds :
    ∀ a b : String,
      1 ≤ max (max (distinctChars a).card (distinctChars b).card) 1 ∧
      0 ≤ similarityPct a b ∧ similarityPct a b ≤ 100 := by
  intro a b
  refine ⟨le_max_right _ _, ?_, ?_⟩
  · unfold similarityPct
    positivity
  · have hmpos : (0 : ℚ) <
        ((max (max (distinctChars a).card (distinctChars b).card) 1 : ℕ) : ℚ) := by
      have h1 : 0 < max (max (distinctChars a).card (distinctChars b).card) 1 :=
        lt_of_lt_of_le Nat.zero_lt_one (le_max_right _ _)
      exact_mod_cast h1
    have hcard : (distinctChars a ∩ distinctChars b).card ≤
        max (max (distinctChars a).card (distinctChars b).card) 1 :=
      le_trans (Finset.card_le_card Finset.inter_subset_left)
        (le_trans (le_max_left _ _) (le_max_left _ _))
    have hdiv : ((distinctChars a ∩ distinctChars b).card : ℚ) /
        ((max (max (distinctChars a).card (distinctChars b).card) 1 : ℕ) : ℚ) ≤ 1 := by
      rw [div_le_one hmpos]
      exact_mod_cast hcard
    have h := mul_le_mul_of_nonneg_right hdiv (show (0 : ℚ) ≤ 100 by norm_num)
    simpa [similarityPct] using h

/-! ## Lemmas about the speaker alternation of the merged builder -/

/-- The alternating Boolean sequence of length n starting at t. -/
def altBools : Bool → ℕ → List Bool
  | _, 0 => []
  | t, n + 1 => t :: altBools (!t) n

lemma uttsWalk_speakers (key iv : ℚ) :
    ∀ (ds : List String) (t : Bool) (i : ℕ),
      (uttsWalk t key iv i ds).map (fun u => u.1) = altBools t ds.length := by
  intro ds
  induction ds with
  | nil => intro t i; rfl
  | cons d rest ih =>
    intro t i
    simp only [uttsWalk, List.map_cons, List.length_cons, altBools, ih]

lemma flipAfter_succ (t : Bool) (n : ℕ) : flipAfter t (n + 1) = flipAfter (!t) n := by
  rcases Nat.mod_two_eq_zero_or_one n with h | h
  · have h1 : (n + 1) % 2 = 1 := by omega
    simp [flipAfter, h, h1]
  · have h1 : (n + 1) % 2 = 0 := by omega
    simp [flipAfter, h, h1]

lemma altBools_append (k : ℕ) :
    ∀ (m : ℕ) (t : Bool), altBools t (m + k) = altBools t m ++ altBools (flipAfter t m) k := by
  intro m
  induction m with
  | zero =>
    intro t
    simp [altBools, flipAfter]
  | succ n ih =>
    intro t
    have hr : n + 1 + k = (n + k) + 1 := by omega
    rw [hr]
    simp only [altBools, List.cons_append, ih (!t), flipAfter_succ]

lemma altBools_head : ∀ (n : ℕ) (x b : Bool), (altBools x n).head? = some b → b = x := by
  intro n x b h
  cases n with
  | zero => simp [altBools] at h
  | succ k =>
    simp only [altBools, List.head?_cons, Option.some.injEq] at h
    exact h.symm

lemma altBools_chain : ∀ (n : ℕ) (t : Bool), List.Chain' (fun a b => b = !a) (altBools t n) := by
  intro n
  induction n with
  | zero => intro t; simp [altBools]
  | succ m ih =>
    intro t
    simp only [altBools]
    refine List.chain'_cons'.mpr ⟨?_, ih (!t)⟩
    intro b hb
    exact altBools_head m (!t) b hb

lemma allUtts_speakers :
    ∀ (rs : List TranscriptRecord) (t : Bool),
      (allUtts t rs).map (fun u => u.1) =
        altBools t ((rs.map (fun r => (dialoguesOf r.transcript).length)).sum) := by
  intro rs
  induction rs with
  | nil => intro t; rfl
  | cons r rest ih =>
    intro t
    simp only [allUtts, List.map_append, List.map_cons, List.sum_cons, fileUtts]
    rw [uttsWalk_speakers, ih, altBools_append]

/-- C8 counterexample: for the transcript "A。B！C" with file duration 1
second (a positive duration) the three synthesized timestamps all truncate
to the origin, so they are not strictly increasing, contrary to the claim
that any positive duration gives strictly increasing timestamps. -/
theorem c8_counterexample :
    mergedUtts [⟨"f", 0, 1, "A。B！C"⟩] =
      [(true, 0, "A"), (false, 0, "B"), (true, 0, "C")] ∧
    ¬ List.Chain' (fun u v : Bool × ℚ × String => u.2.1 < v.2.1)
      ([(true, (0 : ℚ), "A"), (false, 0, "B"), (true, 0, "C")] :
        List (Bool × ℚ × String)) := by
  constructor
  · have hd : dialoguesOf "A。B！C" = ["A", "B", "C"] := by decide
    simp [mergedUtts, List.insertionSort, List.orderedInsert, allUtts, fileUtts, uttsWalk, hd]
    norm_num
    decide
  · simp [List.chain'_cons]

/-- C8 (amended): for one record with transcript "A。B！C" the builder
produces exactly 3 utterances with synthesized second offsets
0, int(D/3) and int(2*(D/3)); for positive D those offsets are
nonnegative, monotone and below D (the utterances span the file duration),
and they are strictly increasing once D is at least 3 seconds (for smaller
positive durations the integer truncation collapses them,
c8_counterexample); the two-valued speaker label alternates strictly
between consecutive utterances globally across all records of one build
call. -/
theorem c8_merged_builder :
    (∀ (name : String) (key D : ℚ),
      mergedUtts [⟨name, key, D, "A。B！C"⟩] =
        [(true, key, "A"),
         (false, key + ((⌊D / 3⌋ : ℤ) : ℚ), "B"),
         (true, key + ((⌊2 * (D / 3)⌋ : ℤ) : ℚ), "C")]) ∧
    (∀ D : ℚ, 0 < D →
      (0 : ℚ) ≤ ((⌊D / 3⌋ : ℤ) : ℚ) ∧
      ((⌊D / 3⌋ : ℤ) : ℚ) ≤ ((⌊2 * (D / 3)⌋ : ℤ) : ℚ) ∧
      ((⌊2 * (D / 3)⌋ : ℤ) : ℚ) < D) ∧
    (∀ (name : String) (key D : ℚ), 3 ≤ D →
      List.Chain' (fun u v => u.2.1 < v.2.1) (mergedUtts [⟨name, key, D, "A。B！C"⟩])) ∧
    (∀ rs : List TranscriptRecord,
      List.Chain' (fun u v => v.1 = !u.1) (mergedUtts rs)) := by
  have hlist : ∀ (name : String) (key D : ℚ),
      mergedUtts [⟨name, key, D, "A。B！C"⟩] =
        [(true, key, "A"),
         (false, key + ((⌊D / 3⌋ : ℤ) : ℚ), "B"),
         (true, key + ((⌊2 * (D / 3)⌋ : ℤ) : ℚ), "C")] := by
    intro name key D
    have hd : dialoguesOf "A。B！C" = ["A", "B", "C"] := by decide
    simp [mergedUtts, List.insertionSort, List.orderedInsert, allUtts, fileUtts, uttsWalk, hd]
    decide
  refine ⟨hlist, ?_, ?_, ?_⟩
  · intro D hD
    have h1 : (0 : ℤ) ≤ ⌊D / 3⌋ := Int.floor_nonneg.mpr (by positivity)
    have h2 : ⌊D / 3⌋ ≤ ⌊2 * (D / 3)⌋ := Int.floor_le_floor (by linarith)
    have h3 := Int.floor_le (2 * (D / 3))
    refine ⟨by exact_mod_cast h1, by exact_mod_cast h2, ?_⟩
    have h4 : 2 * (D / 3) < D := by linarith
    linarith
  · intro name key D h3
    rw [hlist name key D]
    have hf1 : (1 : ℤ) ≤ ⌊D / 3⌋ := Int.le_floor.mpr (by push_cast; linarith)
    have hf2 : ⌊D / 3⌋ + 1 ≤ ⌊2 * (D / 3)⌋ := by
      refine Int.le_floor.mpr ?_
      push_cast
      have := Int.floor_le (D / 3)
      linarith
    have hf1q : (1 : ℚ) ≤ ((⌊D / 3⌋ : ℤ) : ℚ) := by exact_mod_cast hf1
    have hf2q : ((⌊D / 3⌋ : ℤ) : ℚ) + 1 ≤ ((⌊2 * (D / 3)⌋ : ℤ) : ℚ) := by exact_mod_cast hf2
    simp [List.chain'_cons]
    constructor <;> linarith
  · intro rs
    have h := allUtts_speakers
      (List.insertionSort (fun a b => a.datetimeKey ≤ b.datetimeKey) rs) true
    have hc := altBools_chain
      (((List.insertionSort (fun a b => a.datetimeKey ≤ b.datetimeKey) rs).map
        (fun r => (dialoguesOf r.transcript).length)).sum) true
    rw [← h] at hc
    rw [List.chain'_map] at hc
    exact hc

/-- Witness for c8_merged_builder with duration 5 (a duration of at least 3,
so the strict-increase clause applies). -/
theorem c8_merged_builder_witness :
    (0 : ℚ) < 5 ∧ (3 : ℚ) ≤ 5 ∧
    mergedUtts [⟨"f", 0, 5, "A。B！C"⟩] = [(true, 0, "A"), (false, 1, "B"), (true, 3, "C")] ∧
    List.Chain' (fun u v => u.2.1 < v.2.1) (mergedUtts [⟨"f", (0 : ℚ), 5, "A。B！C"⟩]) := by
  refine ⟨by norm_num, by norm_num, ?_, c8_merged_builder.2.2.1 "f" 0 5 (by norm_num)⟩
  rw [c8_merged_builder.1 "f" 0 5]
  norm_num
